import Mathlib

/-!
Verification of the resilient inter-service communication layer of the
market-data simulator: circuit breaker, service registry (register,
deregister, discovery, health filtering), client manager, protocol-bridge
stream adapter, similarity-metric stub and stream interval clamping.

Each definition is a shallow embedding of the corresponding Go function.
Timestamps are modelled as integers (nanoseconds); Go `time.Duration`
values are integers of nanoseconds; `int64` counters are modelled as `Int`
(no overflow is reachable in the modelled executions); `float64`
quantities are modelled as exact rationals.
-/

namespace MarketData

/-! ## Circuit breaker (inter_service_client.go) -/

/-- CircuitState: closed / open / half-open, as in the Go `const` block. -/
inductive CircuitState where
  | CircuitClosed
  | CircuitOpen
  | CircuitHalfOpen
deriving DecidableEq, Repr

open CircuitState

/-- Embedding of the Go `CircuitBreaker` struct.  `lastFailTime` and
`lastSuccTime` are nanosecond timestamps. -/
structure CircuitBreaker where
  state : CircuitState
  failureCount : Int
  successCount : Int
  lastFailTime : Int
  lastSuccTime : Int
  threshold : Int
  timeout : Int
deriving DecidableEq, Repr

/-- Embedding of `CircuitBreaker.recordSuccess`: increments the success
counter, stamps the success time, and on half-open transitions to closed
and zeroes the failure counter. -/
def recordSuccess (now : Int) (cb : CircuitBreaker) : CircuitBreaker :=
  let cb := { cb with successCount := cb.successCount + 1, lastSuccTime := now }
  if cb.state = CircuitHalfOpen then
    { cb with state := CircuitClosed, failureCount := 0 }
  else
    cb

/-- Embedding of `CircuitBreaker.recordFailure`: increments the failure
counter, stamps the failure time; from closed opens once the counter
reaches the threshold, from half-open opens unconditionally. -/
def recordFailure (now : Int) (cb : CircuitBreaker) : CircuitBreaker :=
  let cb := { cb with failureCount := cb.failureCount + 1, lastFailTime := now }
  if cb.state = CircuitClosed ∧ cb.threshold ≤ cb.failureCount then
    { cb with state := CircuitOpen }
  else if cb.state = CircuitHalfOpen then
    { cb with state := CircuitOpen }
  else
    cb

/-- Embedding of `CircuitBreaker.GetState`: lazily transitions an open
breaker to half-open once `now - lastFailTime > timeout`, returning the
(possibly updated) state together with the updated breaker. -/
def getState (now : Int) (cb : CircuitBreaker) : CircuitState × CircuitBreaker :=
  if cb.state = CircuitOpen ∧ cb.timeout < now - cb.lastFailTime then
    (CircuitHalfOpen, { cb with state := CircuitHalfOpen })
  else
    (cb.state, cb)

/-- A sequence of recorded failures at the given timestamps. -/
def recordFailures (cb : CircuitBreaker) (ts : List Int) : CircuitBreaker :=
  ts.foldl (fun c t => recordFailure t c) cb

lemma recordFailures_cons (cb : CircuitBreaker) (t : Int) (ts : List Int) :
    recordFailures cb (t :: ts) = recordFailures (recordFailure t cb) ts := rfl

lemma recordFailure_threshold (t : Int) (cb : CircuitBreaker) :
    (recordFailure t cb).threshold = cb.threshold := by
  simp only [recordFailure]
  split
  · rfl
  · split <;> rfl

lemma recordFailures_threshold (ts : List Int) (cb : CircuitBreaker) :
    (recordFailures cb ts).threshold = cb.threshold := by
  induction ts generalizing cb with
  | nil => rfl
  | cons t ts ih => rw [recordFailures_cons, ih, recordFailure_threshold]

lemma recordFailure_closed_lt (t : Int) (cb : CircuitBreaker)
    (h : cb.state = CircuitClosed) (hlt : cb.failureCount + 1 < cb.threshold) :
    (recordFailure t cb).state = CircuitClosed ∧
    (recordFailure t cb).failureCount = cb.failureCount + 1 := by
  simp only [recordFailure, h]
  rw [if_neg, if_neg]
  · exact ⟨rfl, rfl⟩
  · simp
  · simp
    omega

lemma recordFailures_closed (ts : List Int) (cb : CircuitBreaker)
    (h : cb.state = CircuitClosed)
    (hlen : cb.failureCount + ts.length < cb.threshold) :
    (recordFailures cb ts).state = CircuitClosed ∧
    (recordFailures cb ts).failureCount = cb.failureCount + ts.length := by
  induction ts generalizing cb with
  | nil => exact ⟨h, by simp [recordFailures]⟩
  | cons t ts ih =>
      have hstep := recordFailure_closed_lt t cb h (by simp at hlen; omega)
      rw [recordFailures_cons]
      have hth := recordFailure_threshold t cb
      have := ih (recordFailure t cb) hstep.1
        (by rw [hth, hstep.2]; simp at hlen ⊢; omega)
      refine ⟨this.1, ?_⟩
      rw [this.2, hstep.2]
      simp
      omega

lemma recordFailure_reaches_threshold (t : Int) (cb : CircuitBreaker)
    (h : cb.state = CircuitClosed) (hge : cb.threshold ≤ cb.failureCount + 1) :
    (recordFailure t cb).state = CircuitOpen := by
  simp only [recordFailure, h]
  rw [if_pos]
  constructor
  · simp [h]
  · simpa using hge

lemma recordFailures_reach_threshold (ts : List Int) (cb : CircuitBreaker)
    (h : cb.state = CircuitClosed)
    (hlen : cb.failureCount + ts.length = cb.threshold) (hne : ts ≠ []) :
    (recordFailures cb ts).state = CircuitOpen := by
  rcases List.eq_nil_or_concat ts with hnil | ⟨L, b, hLb⟩
  · exact absurd hnil hne
  · subst hLb
    have hmid := recordFailures_closed L cb h (by simp at hlen ⊢; omega)
    rw [List.concat_eq_append, recordFailures, List.foldl_append]
    have hth := recordFailures_threshold L cb
    have hfin := recordFailure_reaches_threshold b (recordFailures cb L) hmid.1
      (by rw [hmid.2, hth]; simp at hlen ⊢; omega)
    simpa [recordFailures] using hfin

/-- C1: the circuit breaker implements the specified state machine.
From a fresh closed breaker, fewer than `threshold` recorded failures
leave the state closed while exactly `threshold` failures open it; once
more than `timeout` has elapsed since the last failure while open, the
next `GetState` returns half-open; a single success from half-open
returns to closed with the failure counter reset to 0; a single failure
from half-open returns to open. -/
theorem circuit_breaker_state_machine (cb : CircuitBreaker)
    (hstate : cb.state = CircuitClosed) (hcount : cb.failureCount = 0)
    (hpos : 0 < cb.threshold) :
    (∀ ts : List Int, (ts.length : Int) < cb.threshold →
        (recordFailures cb ts).state = CircuitClosed) ∧
    (∀ ts : List Int, (ts.length : Int) = cb.threshold →
        (recordFailures cb ts).state = CircuitOpen) ∧
    (∀ (now : Int) (c : CircuitBreaker), c.state = CircuitOpen →
        c.timeout < now - c.lastFailTime →
        (getState now c).1 = CircuitHalfOpen) ∧
    (∀ (now : Int) (c : CircuitBreaker), c.state = CircuitHalfOpen →
        (recordSuccess now c).state = CircuitClosed ∧
        (recordSuccess now c).failureCount = 0) ∧
    (∀ (now : Int) (c : CircuitBreaker), c.state = CircuitHalfOpen →
        (recordFailure now c).state = CircuitOpen) := by
  refine ⟨?_, ?_, ?_, ?_, ?_⟩
  · intro ts hlt
    exact (recordFailures_closed ts cb hstate (by omega)).1
  · intro ts hlen
    refine recordFailures_reach_threshold ts cb hstate (by omega) ?_
    intro hnil
    subst hnil
    simp at hlen
    omega
  · intro now c hopen htimeout
    simp [getState, hopen, htimeout]
  · intro now c hhalf
    simp [recordSuccess, hhalf]
  · intro now c hhalf
    simp only [recordFailure, hhalf]
    rw [if_neg, if_pos] <;> simp [hhalf]

/-- Witness for C1 on a concrete breaker with threshold 2. -/
theorem circuit_breaker_state_machine_witness :
    (recordFailures ⟨CircuitClosed, 0, 0, 0, 0, 2, 30⟩ [5]).state = CircuitClosed ∧
    (recordFailures ⟨CircuitClosed, 0, 0, 0, 0, 2, 30⟩ [5, 6]).state = CircuitOpen ∧
    (getState 100 ⟨CircuitOpen, 2, 0, 6, 0, 2, 30⟩).1 = CircuitHalfOpen ∧
    (recordSuccess 7 ⟨CircuitHalfOpen, 2, 0, 6, 0, 2, 30⟩).state = CircuitClosed := by
  have h := circuit_breaker_state_machine ⟨CircuitClosed, 0, 0, 0, 0, 2, 30⟩
    rfl rfl (by decide)
  exact ⟨h.1 [5] (by decide), h.2.1 [5, 6] (by decide),
    h.2.2.1 100 ⟨CircuitOpen, 2, 0, 6, 0, 2, 30⟩ rfl (by decide),
    (h.2.2.2.1 7 ⟨CircuitHalfOpen, 2, 0, 6, 0, 2, 30⟩ rfl).1⟩

/-- C2 counterexample: on the half-open-to-closed transition the
success counter is NOT reset to zero, refuting "on every transition into
the closed state both counters are reset to zero". -/
theorem circuit_breaker_counters_counterexample :
    (recordSuccess 1 ⟨CircuitHalfOpen, 3, 7, 0, 0, 5, 30⟩).state = CircuitClosed ∧
    (recordSuccess 1 ⟨CircuitHalfOpen, 3, 7, 0, 0, 5, 30⟩).successCount ≠ 0 := by
  decide

/-- C2 amended: the success counter is monotonically non-decreasing
and never reset; the failure counter is monotonically non-decreasing
except on the half-open-to-closed transition, where it (and it alone) is
reset to zero; the lazy open-to-half-open transition of `GetState` resets
neither counter. -/
theorem circuit_breaker_counters (now : Int) (cb : CircuitBreaker) :
    (recordSuccess now cb).successCount = cb.successCount + 1 ∧
    (recordFailure now cb).successCount = cb.successCount ∧
    (recordFailure now cb).failureCount = cb.failureCount + 1 ∧
    (recordSuccess now cb).failureCount =
      (if cb.state = CircuitHalfOpen then 0 else cb.failureCount) ∧
    (getState now cb).2.failureCount = cb.failureCount ∧
    (getState now cb).2.successCount = cb.successCount := by
  refine ⟨?_, ?_, ?_, ?_, ?_, ?_⟩ <;>
    simp only [recordSuccess, recordFailure, getState] <;>
    split <;> simp_all <;> split <;> simp_all

/-! ## Service registry (service_discovery.go)

The Redis store is external: a discovery scan is modelled by the list of
keys matched by the `services:{name}:*` pattern together with, for each
key, the result of the subsequent `Get` (`none` models a read error), and
`json.Unmarshal` is modelled by a `decode` function returning `none` on
corrupt data.  Timestamps are nanoseconds; `secondNs` is one second. -/

/-- Nanoseconds in one second (`time.Second`). -/
def secondNs : Int := 1000000000

/-- Embedding of the `ServiceInfo` record (field-identical to the Go
`ServiceRegistration` it is deserialized from).  The metadata map is an
association list. -/
structure ServiceInfo where
  serviceName : String
  serviceVersion : String
  instanceID : String
  address : String
  port : Int
  grpcPort : Int
  httpPort : Int
  health : String
  status : String
  registeredAt : Int
  lastHeartbeat : Int
  metadata : List (String × String)
  tags : List String
deriving DecidableEq, Repr

/-- Embedding of the staleness check inside `DiscoverService`: a record
whose heartbeat is more than 60 seconds old is overridden to
unhealthy/stale; otherwise it is returned as recorded. -/
def classifyService (now : Int) (si : ServiceInfo) : ServiceInfo :=
  if 60 * secondNs < now - si.lastHeartbeat then
    { si with health := "unhealthy", status := "stale" }
  else
    si

/-- Embedding of the per-key loop of `DiscoverService`: a failed `Get`
(`none` value) or a failed `json.Unmarshal` (`decode` returns `none`)
skips the entry (`continue` in the Go loop); every other entry is
classified and appended in key order. -/
def discoverLoop (now : Int) (decode : String → Option ServiceInfo) :
    List (String × Option String) → List ServiceInfo
  | [] => []
  | (_, none) :: rest => discoverLoop now decode rest
  | (_, some data) :: rest =>
      match decode data with
      | none => discoverLoop now decode rest
      | some si => classifyService now si :: discoverLoop now decode rest

/-- Embedding of `ServiceDiscovery.DiscoverService`: a failed `Keys` scan
fails the whole call (wrapped error); otherwise the per-key loop runs
best-effort. -/
def DiscoverService (now : Int) (decode : String → Option ServiceInfo)
    (keysResult : Except String (List (String × Option String))) :
    Except String (List ServiceInfo) :=
  match keysResult with
  | Except.error e => Except.error ("failed to discover services: " ++ e)
  | Except.ok entries => Except.ok (discoverLoop now decode entries)

/-- Embedding of the filter loop of `GetHealthyInstances`. -/
def healthyFilterLoop : List ServiceInfo → List ServiceInfo
  | [] => []
  | si :: rest =>
      if si.health = "healthy" ∧ si.status = "active" then
        si :: healthyFilterLoop rest
      else
        healthyFilterLoop rest

/-- Embedding of `ServiceDiscovery.GetHealthyInstances`: discovery errors
are returned unchanged, successful results are filtered. -/
def GetHealthyInstances (now : Int) (decode : String → Option ServiceInfo)
    (keysResult : Except String (List (String × Option String))) :
    Except String (List ServiceInfo) :=
  match DiscoverService now decode keysResult with
  | Except.error e => Except.error e
  | Except.ok allServices => Except.ok (healthyFilterLoop allServices)

lemma discoverLoop_filterMap (now : Int) (decode : String → Option ServiceInfo)
    (entries : List (String × Option String)) :
    discoverLoop now decode entries =
      (entries.filterMap (fun e => e.2.bind decode)).map (classifyService now) := by
  induction entries with
  | nil => rfl
  | cons e rest ih =>
      obtain ⟨k, v⟩ := e
      cases v with
      | none => simpa [discoverLoop] using ih
      | some data =>
          cases hdec : decode data with
          | none => simp [discoverLoop, hdec, ih]
          | some si => simp [discoverLoop, hdec, ih]

/-- C5: DiscoverService returns one result per readable, well-formed
entry (in key order, skipping unreadable or corrupt entries without
failing the call), marks an entry unhealthy/stale exactly when its
heartbeat is more than 60 seconds old, and leaves every other field, and
fresh entries entirely, unchanged. -/
theorem discover_service_best_effort (now : Int)
    (decode : String → Option ServiceInfo)
    (entries : List (String × Option String)) :
    DiscoverService now decode (Except.ok entries) =
      Except.ok
        ((entries.filterMap (fun e => e.2.bind decode)).map
          (classifyService now)) ∧
    (∀ si : ServiceInfo, 60 * secondNs < now - si.lastHeartbeat →
        (classifyService now si).health = "unhealthy" ∧
        (classifyService now si).status = "stale" ∧
        (classifyService now si).serviceName = si.serviceName ∧
        (classifyService now si).instanceID = si.instanceID ∧
        (classifyService now si).address = si.address ∧
        (classifyService now si).lastHeartbeat = si.lastHeartbeat) ∧
    (∀ si : ServiceInfo, ¬ 60 * secondNs < now - si.lastHeartbeat →
        classifyService now si = si) := by
  refine ⟨?_, ?_, ?_⟩
  · simp [DiscoverService, discoverLoop_filterMap]
  · intro si hstale
    simp [classifyService, hstale]
  · intro si hfresh
    simp [classifyService, hfresh]

/-- Concrete registration record used by witnesses: a healthy, active
instance with heartbeat at time 0. -/
def sampleFresh : ServiceInfo :=
  ⟨"x", "1.0.0", "a", "localhost", 8080, 9090, 8080, "healthy", "active",
    0, 0, [], ["grpc"]⟩

/-- Witness for C5: one fresh readable entry,
one unreadable entry and one corrupt entry, plus a stale classification. -/
theorem discover_service_best_effort_witness :
    DiscoverService 0
        (fun s => if s = "good" then some sampleFresh else none)
        (Except.ok
          [("services:x:a", some "good"), ("services:x:b", none),
           ("services:x:c", some "corrupt")]) =
      Except.ok [sampleFresh] ∧
    (classifyService (100 * secondNs) sampleFresh).health = "unhealthy" := by
  have h := discover_service_best_effort 0
    (fun s => if s = "good" then some sampleFresh else none)
    [("services:x:a", some "good"), ("services:x:b", none),
     ("services:x:c", some "corrupt")]
  have h2 := discover_service_best_effort (100 * secondNs)
    (fun _ => (none : Option ServiceInfo)) []
  refine ⟨?_, ?_⟩
  · rw [h.1]
    rfl
  · exact (h2.2.1 sampleFresh (by decide)).1

lemma healthyFilterLoop_filter (l : List ServiceInfo) :
    healthyFilterLoop l =
      l.filter (fun si => si.health == "healthy" && si.status == "active") := by
  induction l with
  | nil => rfl
  | cons si rest ih =>
      simp only [healthyFilterLoop, List.filter_cons]
      by_cases hc : si.health = "healthy" ∧ si.status = "active"
      · have htrue : (si.health == "healthy" && si.status == "active") = true := by
          rw [Bool.and_eq_true, beq_iff_eq, beq_iff_eq]
          exact hc
        rw [if_pos hc, htrue, ih]
        simp
      · have hfalse : (si.health == "healthy" && si.status == "active") = false := by
          by_contra hcontra
          rw [Bool.not_eq_false, Bool.and_eq_true, beq_iff_eq, beq_iff_eq] at hcontra
          exact hc hcontra
        rw [if_neg hc, hfalse, ih]
        simp

/-- Embedding of the Redis store state touched by registration: the
string keys (`SetEx`/`Del`) and the set keys (`SAdd`/`SRem`). -/
structure RedisStore where
  kv : List (String × String)
  sets : List (String × List String)
deriving DecidableEq, Repr

/-- Redis `SetEx` on the modelled store (TTL is managed by the store and
not part of the state). -/
def storeSet (store : RedisStore) (k v : String) : RedisStore :=
  { store with kv := (k, v) :: store.kv.filter (fun p => p.1 != k) }

/-- Redis `Del` on the modelled store. -/
def storeDel (store : RedisStore) (k : String) : RedisStore :=
  { store with kv := store.kv.filter (fun p => p.1 != k) }

/-- Redis `SAdd` on the modelled store. -/
def storeSAdd (store : RedisStore) (k member : String) : RedisStore :=
  match store.sets.lookup k with
  | none => { store with sets := (k, [member]) :: store.sets }
  | some members =>
      if member ∈ members then store
      else
        { store with
            sets := (k, member :: members) ::
              store.sets.filter (fun p => p.1 != k) }

/-- Redis `SRem` on the modelled store. -/
def storeSRem (store : RedisStore) (k member : String) : RedisStore :=
  match store.sets.lookup k with
  | none => store
  | some members =>
      { store with
          sets := (k, members.filter (fun m => m != member)) ::
            store.sets.filter (fun p => p.1 != k) }

/-- In-process registry state: the `isRegistered` flag and the owned
registration record (`ServiceRegistration` is field-identical to
`ServiceInfo`). -/
structure ServiceDiscoveryState where
  isRegistered : Bool
  registration : ServiceInfo
deriving DecidableEq, Repr

/-- Embedding of `getServiceKey`. -/
def getServiceKey (sd : ServiceDiscoveryState) : String :=
  "services:" ++ sd.registration.serviceName ++ ":" ++ sd.registration.instanceID

/-- Embedding of `getServiceListKey`. -/
def getServiceListKey (sd : ServiceDiscoveryState) : String :=
  "service_list:" ++ sd.registration.serviceName

/-- Outcome of `Register`. -/
inductive RegResult where
  | ok
  | alreadyRegistered
  | connectionFailed
  | setFailed
deriving DecidableEq, Repr

/-- Embedding of `ServiceDiscovery.Register`.  `encode` models
`json.Marshal`; `pingOk`, `setExOk` and `sAddOk` model the outcomes of
the Redis calls.  An already-registered instance errors before touching
the store; a failed ping or failed `SetEx` errors without registering; a
failed `SAdd` is only logged, so registration still succeeds. -/
def Register (encode : ServiceInfo → String) (pingOk setExOk sAddOk : Bool)
    (sd : ServiceDiscoveryState) (store : RedisStore) :
    RegResult × ServiceDiscoveryState × RedisStore :=
  if sd.isRegistered then
    (RegResult.alreadyRegistered, sd, store)
  else if !pingOk then
    (RegResult.connectionFailed, sd, store)
  else if !setExOk then
    (RegResult.setFailed, sd, store)
  else
    let store := storeSet store (getServiceKey sd) (encode sd.registration)
    let store :=
      if sAddOk then
        storeSAdd store (getServiceListKey sd) sd.registration.instanceID
      else
        store
    (RegResult.ok, { sd with isRegistered := true }, store)

/-- Outcome of `Deregister`. -/
inductive DeregResult where
  | ok
  | notRegistered
deriving DecidableEq, Repr

/-- Embedding of `ServiceDiscovery.Deregister` at the state level: a
not-registered instance errors before touching the store; otherwise the
registration key is deleted and the instance id removed from the set
(Redis errors there are only logged).  The heartbeat handshake it
performs first is modelled separately by `DStep`/`DExec`. -/
def Deregister (sd : ServiceDiscoveryState) (store : RedisStore) :
    DeregResult × ServiceDiscoveryState × RedisStore :=
  if !sd.isRegistered then
    (DeregResult.notRegistered, sd, store)
  else
    let store := storeDel store (getServiceKey sd)
    let store := storeSRem store (getServiceListKey sd) sd.registration.instanceID
    (DeregResult.ok, { sd with isRegistered := false }, store)

/-- C4: Deregister on an unregistered instance returns the
not-registered error and leaves both the local state and the store
untouched; Register on a registered instance returns the
already-registered error and leaves both untouched, so a second Register
after a successful one fails that way with nothing changed. -/
theorem register_deregister_guards (encode : ServiceInfo → String)
    (pingOk setExOk sAddOk : Bool) (sd : ServiceDiscoveryState)
    (store : RedisStore) :
    (sd.isRegistered = false →
        Deregister sd store = (DeregResult.notRegistered, sd, store)) ∧
    (sd.isRegistered = true →
        Register encode pingOk setExOk sAddOk sd store =
          (RegResult.alreadyRegistered, sd, store)) ∧
    (∀ sd' store',
        Register encode pingOk setExOk sAddOk sd store =
          (RegResult.ok, sd', store') →
        ∀ (encode' : ServiceInfo → String) (p' s' a' : Bool),
          Register encode' p' s' a' sd' store' =
            (RegResult.alreadyRegistered, sd', store')) := by
  refine ⟨?_, ?_, ?_⟩
  · intro h
    simp [Deregister, h]
  · intro h
    simp [Register, h]
  · intro sd' store' hreg encode' p' s' a'
    have hsd' : sd'.isRegistered = true := by
      unfold Register at hreg
      split_ifs at hreg
      · exact absurd hreg (by simp)
      · exact absurd hreg (by simp)
      · exact absurd hreg (by simp)
      · rw [Prod.mk.injEq, Prod.mk.injEq] at hreg
        rw [← hreg.2.1]
      · simp only [Prod.mk.injEq] at hreg
        rw [← hreg.2.1]
    simp [Register, hsd']

/-- Witness for C4 on a concrete unregistered instance and empty store. -/
theorem register_deregister_guards_witness :
    Deregister ⟨false, sampleFresh⟩ ⟨[], []⟩ =
      (DeregResult.notRegistered, ⟨false, sampleFresh⟩, ⟨[], []⟩) ∧
    Register (fun _ => "enc") true true true ⟨true, sampleFresh⟩ ⟨[], []⟩ =
      (RegResult.alreadyRegistered, ⟨true, sampleFresh⟩, ⟨[], []⟩) := by
  have h := register_deregister_guards (fun _ => "enc") true true true
    ⟨false, sampleFresh⟩ ⟨[], []⟩
  have h2 := register_deregister_guards (fun _ => "enc") true true true
    ⟨true, sampleFresh⟩ ⟨[], []⟩
  exact ⟨h.1 rfl, h2.2.1 rfl⟩

/-! ### Deregistration vs. heartbeat interleaving (C3)

`Deregister` first performs the handshake `heartbeatStop <- true` followed
by `<-heartbeatDone`; the loop in `startHeartbeat` either writes the
registration key on a ticker tick or, on receiving the stop signal, sends
`done` and returns.  Both channels are unbuffered, so each send/receive
pair is a rendezvous, modelled as a single joint step of the two tasks. -/

/-- State of the heartbeat loop task: running its select loop, about to
send on `heartbeatDone` after receiving the stop signal, or returned. -/
inductive LoopState where
  | running
  | doneReady
  | stopped
deriving DecidableEq, Repr

/-- Progress of the `Deregister` call through its statements. -/
inductive DeregPhase where
  | idle
  | sentStop
  | gotDone
  | deletedKey
  | removedSet
deriving DecidableEq, Repr

/-- Joint state of the heartbeat loop, the deregistering call and the
store locations they touch. -/
structure DeregSystem where
  loop : LoopState
  dereg : DeregPhase
  keyPresent : Bool
  inSet : Bool
deriving DecidableEq, Repr

/-- Observable actions of the interleaved execution. -/
inductive DLabel where
  | writeHeartbeat
  | stopSync
  | doneSync
  | deleteKey
  | removeFromSet
deriving DecidableEq, Repr

/-- Interleaved small-step semantics: a running loop may re-write the
registration key on any tick; the unbuffered `heartbeatStop` rendezvous
moves the loop out of its select and the caller past its send; the
`heartbeatDone` rendezvous retires the loop and unblocks the caller,
which then deletes the key and removes the instance from the set. -/
inductive DStep : DeregSystem → DLabel → DeregSystem → Prop where
  | heartbeat (s : DeregSystem) (h : s.loop = LoopState.running) :
      DStep s DLabel.writeHeartbeat { s with keyPresent := true }
  | stop (s : DeregSystem) (hl : s.loop = LoopState.running)
      (hd : s.dereg = DeregPhase.idle) :
      DStep s DLabel.stopSync
        { s with loop := LoopState.doneReady, dereg := DeregPhase.sentStop }
  | done (s : DeregSystem) (hl : s.loop = LoopState.doneReady)
      (hd : s.dereg = DeregPhase.sentStop) :
      DStep s DLabel.doneSync
        { s with loop := LoopState.stopped, dereg := DeregPhase.gotDone }
  | del (s : DeregSystem) (hd : s.dereg = DeregPhase.gotDone) :
      DStep s DLabel.deleteKey
        { s with keyPresent := false, dereg := DeregPhase.deletedKey }
  | srem (s : DeregSystem) (hd : s.dereg = DeregPhase.deletedKey) :
      DStep s DLabel.removeFromSet
        { s with inSet := false, dereg := DeregPhase.removedSet }

/-- Finite executions of the interleaved system, recording the action
trace. -/
inductive DExec : DeregSystem → List DLabel → DeregSystem → Prop where
  | nil (s : DeregSystem) : DExec s [] s
  | cons {s s' s'' : DeregSystem} {l : DLabel} {ls : List DLabel} :
      DStep s l s' → DExec s' ls s'' → DExec s (l :: ls) s''

/-- Initial state: heartbeat loop running, Deregister not yet started. -/
def deregInit (key0 set0 : Bool) : DeregSystem :=
  ⟨LoopState.running, DeregPhase.idle, key0, set0⟩

lemma dstep_stopped {s s' : DeregSystem} {l : DLabel} (hstep : DStep s l s')
    (h : s.loop = LoopState.stopped) :
    s'.loop = LoopState.stopped ∧ l ≠ DLabel.writeHeartbeat := by
  cases hstep with
  | heartbeat hr => rw [hr] at h; exact absurd h (by simp)
  | stop hr hd => rw [hr] at h; exact absurd h (by simp)
  | done hr hd => rw [hr] at h; exact absurd h (by simp)
  | del hd => exact ⟨h, by simp⟩
  | srem hd => exact ⟨h, by simp⟩

lemma dexec_stopped {s s' : DeregSystem} {ls : List DLabel}
    (hexec : DExec s ls s') (h : s.loop = LoopState.stopped) :
    DLabel.writeHeartbeat ∉ ls := by
  induction hexec with
  | nil => simp
  | cons hstep _ ih =>
      have hs := dstep_stopped hstep h
      simp only [List.mem_cons, not_or]
      exact ⟨fun heq => hs.2 heq.symm, ih hs.1⟩

/-- Invariant: once `Deregister` has received the `done` signal, the
heartbeat loop has returned. -/
def DeregInv (s : DeregSystem) : Prop :=
  (s.dereg = DeregPhase.gotDone ∨ s.dereg = DeregPhase.deletedKey ∨
    s.dereg = DeregPhase.removedSet) → s.loop = LoopState.stopped

lemma dstep_inv {s s' : DeregSystem} {l : DLabel} (hstep : DStep s l s')
    (hinv : DeregInv s) : DeregInv s' := by
  cases hstep with
  | heartbeat hr =>
      intro hd
      have hs := hinv hd
      rw [hr] at hs
      exact absurd hs (by simp)
  | stop hr hd => intro hd'; simp at hd'
  | done hr hd => intro _; rfl
  | del hd =>
      intro _
      exact hinv (Or.inl hd)
  | srem hd =>
      intro _
      exact hinv (Or.inr (Or.inl hd))

lemma dexec_inv {s s' : DeregSystem} {ls : List DLabel}
    (hexec : DExec s ls s') (hinv : DeregInv s) : DeregInv s' := by
  induction hexec with
  | nil => exact hinv
  | cons hstep _ ih => exact ih (dstep_inv hstep hinv)

lemma dexec_append_split {s s'' : DeregSystem} (l₁ : List DLabel)
    {l₂ : List DLabel} (hexec : DExec s (l₁ ++ l₂) s'') :
    ∃ smid, DExec s l₁ smid ∧ DExec smid l₂ s'' := by
  induction l₁ generalizing s with
  | nil => exact ⟨s, DExec.nil s, hexec⟩
  | cons l ls ih =>
      cases hexec with
      | cons hstep hrest =>
          obtain ⟨smid, h1, h2⟩ := ih hrest
          exact ⟨smid, DExec.cons hstep h1, h2⟩

/-- C3: in every interleaved execution starting from a running heartbeat
loop, no heartbeat write to the registration key occurs after the key
deletion performed by Deregister: the `heartbeatDone` rendezvous, which
Deregister blocks on before deleting, is only reachable once the loop
has returned. -/
theorem deregister_no_heartbeat_after_delete (key0 set0 : Bool)
    (tr l₁ l₂ : List DLabel) (s : DeregSystem)
    (hexec : DExec (deregInit key0 set0) tr s)
    (hsplit : tr = l₁ ++ DLabel.deleteKey :: l₂) :
    DLabel.writeHeartbeat ∉ l₂ := by
  subst hsplit
  obtain ⟨smid, hpre, hpost⟩ := dexec_append_split l₁ hexec
  have hinvmid : DeregInv smid :=
    dexec_inv hpre (by intro h; simp [deregInit] at h)
  cases hpost with
  | cons hstep hrest =>
      cases hstep with
      | del hd =>
          have hstopped := hinvmid (Or.inl hd)
          exact dexec_stopped hrest hstopped

/-- Witness for C3: a concrete execution that heartbeats once, performs
the stop/done handshake, deletes the key and removes the set entry; the
theorem yields that no heartbeat write follows the deletion. -/
theorem deregister_no_heartbeat_after_delete_witness :
    (DExec (deregInit true true)
      [DLabel.writeHeartbeat, DLabel.stopSync, DLabel.doneSync,
        DLabel.deleteKey, DLabel.removeFromSet]
      ⟨LoopState.stopped, DeregPhase.removedSet, false, false⟩) ∧
    DLabel.writeHeartbeat ∉ [DLabel.removeFromSet] := by
  have hexec : DExec (deregInit true true)
      [DLabel.writeHeartbeat, DLabel.stopSync, DLabel.doneSync,
        DLabel.deleteKey, DLabel.removeFromSet]
      ⟨LoopState.stopped, DeregPhase.removedSet, false, false⟩ :=
    DExec.cons (DStep.heartbeat _ rfl)
      (DExec.cons (DStep.stop _ rfl rfl)
        (DExec.cons (DStep.done _ rfl rfl)
          (DExec.cons (DStep.del _ rfl)
            (DExec.cons (DStep.srem _ rfl) (DExec.nil _)))))
  exact ⟨hexec,
    deregister_no_heartbeat_after_delete true true
      [DLabel.writeHeartbeat, DLabel.stopSync, DLabel.doneSync,
        DLabel.deleteKey, DLabel.removeFromSet]
      [DLabel.writeHeartbeat, DLabel.stopSync, DLabel.doneSync]
      [DLabel.removeFromSet]
      ⟨LoopState.stopped, DeregPhase.removedSet, false, false⟩ hexec rfl⟩

/-- C6: GetHealthyInstances returns exactly the sublist of
DiscoverService results with health "healthy" and status "active", in
the same order, and returns a discovery error unchanged. -/
theorem get_healthy_instances_filter (now : Int)
    (decode : String → Option ServiceInfo)
    (keysResult : Except String (List (String × Option String))) :
    GetHealthyInstances now decode keysResult =
      (DiscoverService now decode keysResult).map
        (List.filter (fun si => si.health == "healthy" && si.status == "active")) ∧
    (∀ e : String, DiscoverService now decode keysResult = Except.error e →
        GetHealthyInstances now decode keysResult = Except.error e) := by
  constructor
  · cases h : DiscoverService now decode keysResult with
    | error e => simp [GetHealthyInstances, h, Except.map]
    | ok l => simp [GetHealthyInstances, h, Except.map, healthyFilterLoop_filter]
  · intro e h
    simp [GetHealthyInstances, h]

/-- Witness for C6: a failed scan propagates the discovery error
unchanged, and a successful scan is filtered. -/
theorem get_healthy_instances_filter_witness :
    GetHealthyInstances 0 (fun _ => some sampleFresh)
        (Except.error "redis down") =
      Except.error "failed to discover services: redis down" ∧
    GetHealthyInstances 0 (fun _ => some sampleFresh)
        (Except.ok [("services:x:a", some "v")]) =
      (DiscoverService 0 (fun _ => some sampleFresh)
          (Except.ok [("services:x:a", some "v")])).map
        (List.filter (fun si => si.health == "healthy" && si.status == "active")) := by
  have h := get_healthy_instances_filter 0 (fun _ => some sampleFresh)
    (Except.error "redis down")
  have h2 := get_healthy_instances_filter 0 (fun _ => some sampleFresh)
    (Except.ok [("services:x:a", some "v")])
  exact ⟨h.2 "failed to discover services: redis down" rfl, h2.1⟩

/-! ## Client manager (inter_service_client.go) -/

/-- Embedding of the pooled `ServiceClient` fields the manager reads:
last-used timestamp, health flag and circuit breaker (the gRPC
connection and health client are external handles). -/
structure ClientEntry where
  lastUsed : Int
  isHealthy : Bool
  circuitBreaker : CircuitBreaker
deriving DecidableEq, Repr

/-- Embedding of the `InterServiceClientManager` state: the client pool
keyed by `serviceName:serviceType` plus the manager metrics the claims
mention. -/
structure ManagerState where
  clients : List (String × ClientEntry)
  connectionErrors : Int
  activeConnections : Int
  poolSize : Int
deriving DecidableEq, Repr

/-- Error taxonomy of `GetClient`/`createClient`: the typed
`ServiceUnavailableError`, a wrapped discovery error, a wrapped
dial/health failure, and the `failed to create client for %s`
wrapper added by `GetClient`. -/
inductive ClientError where
  | serviceUnavailable (serviceName reason : String)
  | discoveryFailed (msg : String)
  | connectFailed (msg : String)
  | createFailed (serviceName : String) (cause : ClientError)
deriving DecidableEq, Repr

/-- Embedding of `createClient`: discovery via `GetHealthyInstances`,
then the typed unavailable error on an empty result, otherwise dial plus
health probe on the first instance (modelled by `connect`). -/
def createClient (serviceName : String) (now : Int)
    (decode : String → Option ServiceInfo)
    (keysResult : Except String (List (String × Option String)))
    (connect : ServiceInfo → Except ClientError ClientEntry) :
    Except ClientError ClientEntry :=
  match GetHealthyInstances now decode keysResult with
  | Except.error e => Except.error (ClientError.discoveryFailed e)
  | Except.ok [] =>
      Except.error
        (ClientError.serviceUnavailable serviceName "no healthy instances found")
  | Except.ok (service :: _) => connect service

/-- In-place update of the pooled entry behind a key (the Go pool holds
pointers, so the `lastUsed`/breaker mutations persist). -/
def poolUpdate (clients : List (String × ClientEntry)) (k : String)
    (c : ClientEntry) : List (String × ClientEntry) :=
  clients.map (fun p => if p.1 = k then (k, c) else p)

/-- Map assignment `cm.clients[clientKey] = client`. -/
def poolInsert (clients : List (String × ClientEntry)) (k : String)
    (c : ClientEntry) : List (String × ClientEntry) :=
  if (clients.lookup k).isSome then poolUpdate clients k c
  else clients ++ [(k, c)]

/-- Shared tail of `GetClient`: create the client, and either record a
connection error or store the new client and update the metrics. -/
def getClientCreate (serviceName clientKey : String) (now : Int)
    (decode : String → Option ServiceInfo)
    (keysResult : Except String (List (String × Option String)))
    (connect : ServiceInfo → Except ClientError ClientEntry)
    (m : ManagerState) : Except ClientError ClientEntry × ManagerState :=
  match createClient serviceName now decode keysResult connect with
  | Except.error e =>
      (Except.error (ClientError.createFailed serviceName e),
        { m with connectionErrors := m.connectionErrors + 1 })
  | Except.ok c =>
      let clients := poolInsert m.clients clientKey c
      (Except.ok c,
        { m with
            clients := clients,
            activeConnections := m.activeConnections + 1,
            poolSize := clients.length })

/-- Embedding of `InterServiceClientManager.GetClient`: an existing
pooled client has its `lastUsed` stamped and is returned if it is
healthy and its breaker (after the lazy `GetState` transition) is not
open; otherwise the client is (re)created. -/
def GetClient (serviceName serviceType : String) (now : Int)
    (decode : String → Option ServiceInfo)
    (keysResult : Except String (List (String × Option String)))
    (connect : ServiceInfo → Except ClientError ClientEntry)
    (m : ManagerState) : Except ClientError ClientEntry × ManagerState :=
  let clientKey := serviceName ++ ":" ++ serviceType
  match m.clients.lookup clientKey with
  | some client =>
      let client := { client with lastUsed := now }
      let stPair := getState now client.circuitBreaker
      let client := { client with circuitBreaker := stPair.2 }
      let m := { m with clients := poolUpdate m.clients clientKey client }
      if client.isHealthy = true ∧ stPair.1 ≠ CircuitOpen then
        (Except.ok client, m)
      else
        getClientCreate serviceName clientKey now decode keysResult connect m
  | none =>
      getClientCreate serviceName clientKey now decode keysResult connect m

/-- Closed breaker used in concrete client-manager states. -/
def cbClosed : CircuitBreaker := ⟨CircuitClosed, 0, 0, 0, 0, 5, 30 * secondNs⟩

/-- C7 counterexample: with a healthy pooled client whose breaker is
closed, a GetClient call in an environment where discovery yields zero
healthy instances returns the cached client with no error and does not
touch the connection-error counter, refuting the claim for every call. -/
theorem get_client_unavailable_counterexample :
    GetHealthyInstances 0 (fun _ => none) (Except.ok []) =
      Except.ok ([] : List ServiceInfo) ∧
    (GetClient "risk-monitor" "grpc" 0 (fun _ => none) (Except.ok [])
        (fun _ => Except.error (ClientError.connectFailed "dial"))
        ⟨[("risk-monitor:grpc", ⟨0, true, cbClosed⟩)], 0, 1, 1⟩).1 =
      Except.ok ⟨0, true, cbClosed⟩ ∧
    (GetClient "risk-monitor" "grpc" 0 (fun _ => none) (Except.ok [])
        (fun _ => Except.error (ClientError.connectFailed "dial"))
        ⟨[("risk-monitor:grpc", ⟨0, true, cbClosed⟩)], 0, 1, 1⟩).2.connectionErrors
      = 0 := by
  refine ⟨rfl, ?_, ?_⟩ <;> rfl

/-- C7 amended: whenever the pool holds no usable entry for the key (no
entry, or an unhealthy one, or one whose breaker reads open) and
discovery yields zero healthy instances, GetClient returns the typed
service-unavailable error (wrapped by the create-failure context), no
client, and increments the connection-error counter by exactly one. -/
theorem get_client_unavailable (serviceName serviceType : String) (now : Int)
    (decode : String → Option ServiceInfo)
    (keysResult : Except String (List (String × Option String)))
    (connect : ServiceInfo → Except ClientError ClientEntry)
    (m : ManagerState)
    (hpool : ∀ client,
      m.clients.lookup (serviceName ++ ":" ++ serviceType) = some client →
      ¬(client.isHealthy = true ∧
        (getState now client.circuitBreaker).1 ≠ CircuitOpen))
    (hempty : GetHealthyInstances now decode keysResult =
      Except.ok ([] : List ServiceInfo)) :
    (GetClient serviceName serviceType now decode keysResult connect m).1 =
      Except.error (ClientError.createFailed serviceName
        (ClientError.serviceUnavailable serviceName
          "no healthy instances found")) ∧
    (GetClient serviceName serviceType now decode keysResult connect m).2.connectionErrors =
      m.connectionErrors + 1 := by
  have hcreate : createClient serviceName now decode keysResult connect =
      Except.error (ClientError.serviceUnavailable serviceName
        "no healthy instances found") := by
    simp [createClient, hempty]
  unfold GetClient
  cases hlook : m.clients.lookup (serviceName ++ ":" ++ serviceType) with
  | none =>
      simp only [hlook, getClientCreate, hcreate]
      exact ⟨trivial, trivial⟩
  | some client =>
      have hfail := hpool client hlook
      simp only [hlook]
      rw [if_neg hfail]
      simp only [getClientCreate, hcreate]
      exact ⟨trivial, trivial⟩

/-- Witness for C7 on an empty pool and an empty discovery scan. -/
theorem get_client_unavailable_witness :
    (GetClient "risk-monitor" "grpc" 0 (fun _ => none) (Except.ok [])
        (fun _ => Except.error (ClientError.connectFailed "dial"))
        ⟨[], 0, 0, 0⟩).1 =
      Except.error (ClientError.createFailed "risk-monitor"
        (ClientError.serviceUnavailable "risk-monitor"
          "no healthy instances found")) ∧
    (GetClient "risk-monitor" "grpc" 0 (fun _ => none) (Except.ok [])
        (fun _ => Except.error (ClientError.connectFailed "dial"))
        ⟨[], 0, 0, 0⟩).2.connectionErrors = 0 + 1 := by
  have h := get_client_unavailable "risk-monitor" "grpc" 0 (fun _ => none)
    (Except.ok []) (fun _ => Except.error (ClientError.connectFailed "dial"))
    ⟨[], 0, 0, 0⟩ (by intro client hlook; simp [List.lookup] at hlook) rfl
  exact h

/-! ## Protocol-bridge stream adapter and streaming handler

`priceStreamAdapter.Send` forwards to the Connect stream's `Send`
primitive; the underlying send is modelled as an abstract fallible
function.  The per-tick loop of `MarketDataGRPCHandler.StreamPrices`
selects between context cancellation and a ticker tick; a tick sends one
update per subscribed symbol and returns the first send error. -/

/-- Embedding of `priceStreamAdapter`: it holds the second protocol's
stream-send primitive (`connect.ServerStream.Send`). -/
structure PriceStreamAdapter (μ ε : Type) where
  streamSend : μ → Except ε Unit

/-- Embedding of `priceStreamAdapter.Send`: forwards the message to the
underlying Connect send. -/
def PriceStreamAdapter.send {μ ε : Type} (s : PriceStreamAdapter μ ε)
    (msg : μ) : Except ε Unit :=
  s.streamSend msg

/-- Events the `select` of the streaming loop can observe, in order. -/
inductive StreamEvent where
  | ctxDone
  | tick
deriving DecidableEq, Repr

/-- How a run of the streaming loop ends (or that it is still live after
the observed events). -/
inductive StreamOutcome (ε : Type) where
  | ctxError
  | sendError (e : ε)
  | stillRunning
deriving DecidableEq, Repr

/-- Embedding of the inner per-tick loop of `StreamPrices`: send one
update per symbol, returning the first send error. -/
def sendAll {μ ε : Type} (send : μ → Except ε Unit) :
    List μ → Except ε Unit
  | [] => Except.ok ()
  | msg :: rest =>
      match send msg with
      | Except.error e => Except.error e
      | Except.ok _ => sendAll send rest

/-- Embedding of the `for`/`select` loop of `StreamPrices` over a finite
event trace: cancellation returns the context error, a tick whose send
fails returns that error, otherwise the loop continues with the next
tick index. `updates k` is the list of per-symbol price updates
generated at tick `k` and `send k` the stream send at tick `k`. -/
def streamLoop {μ ε : Type} (updates : Nat → List μ)
    (send : Nat → μ → Except ε Unit) :
    Nat → List StreamEvent → StreamOutcome ε
  | _, [] => StreamOutcome.stillRunning
  | _, StreamEvent.ctxDone :: _ => StreamOutcome.ctxError
  | k, StreamEvent.tick :: evs =>
      match sendAll (send k) (updates k) with
      | Except.error e => StreamOutcome.sendError e
      | Except.ok _ => streamLoop updates send (k + 1) evs

/-- C8: the stream adapter forwards every message to the second
protocol's send primitive and returns its error unchanged; the handler's
per-tick send loop returns the first failing send's error untouched;
and the streaming loop terminates with the send error as soon as a tick
fails, or with the context error as soon as the bridged context is
cancelled, ignoring any later events. -/
theorem stream_adapter_error_propagation {μ ε : Type} :
    (∀ (ad : PriceStreamAdapter μ ε) (msg : μ), ad.send msg = ad.streamSend msg) ∧
    (∀ (send : μ → Except ε Unit) (pre rest : List μ) (msg : μ) (e : ε),
        send msg = Except.error e → (∀ m ∈ pre, send m = Except.ok ()) →
        sendAll send (pre ++ msg :: rest) = Except.error e) ∧
    (∀ (updates : Nat → List μ) (send : Nat → μ → Except ε Unit)
        (k : Nat) (evs : List StreamEvent),
        streamLoop updates send k (StreamEvent.ctxDone :: evs) =
          StreamOutcome.ctxError) ∧
    (∀ (updates : Nat → List μ) (send : Nat → μ → Except ε Unit)
        (k : Nat) (evs : List StreamEvent) (e : ε),
        sendAll (send k) (updates k) = Except.error e →
        streamLoop updates send k (StreamEvent.tick :: evs) =
          StreamOutcome.sendError e) := by
  refine ⟨fun ad msg => rfl, ?_, fun updates send k evs => rfl, ?_⟩
  · intro send pre rest msg e herr hok
    induction pre with
    | nil => simp [sendAll, herr]
    | cons m pre ih =>
        have hm : send m = Except.ok () := hok m (by simp)
        simp only [List.cons_append, sendAll, hm]
        exact ih (fun m' hm' => hok m' (by simp [hm']))
  · intro updates send k evs e herr
    simp [streamLoop, herr]

/-- Witness for C8 with a send that fails on message 1. -/
theorem stream_adapter_error_propagation_witness :
    sendAll (fun n => if n = 1 then Except.error "boom" else Except.ok ())
        ([0] ++ 1 :: [2]) = Except.error "boom" ∧
    streamLoop (fun _ => [0, 1, 2])
        (fun _ n => if n = 1 then Except.error "boom" else Except.ok ())
        0 [StreamEvent.tick, StreamEvent.tick] =
      StreamOutcome.sendError "boom" := by
  have h := stream_adapter_error_propagation (μ := Nat) (ε := String)
  refine ⟨?_, ?_⟩
  · exact h.2.1 (fun n => if n = 1 then Except.error "boom" else Except.ok ())
      [0] [2] 1 "boom" rfl (by intro m hm; simp at hm; simp [hm])
  · exact h.2.2.2 (fun _ => [0, 1, 2])
      (fun _ n => if n = 1 then Except.error "boom" else Except.ok ())
      0 [StreamEvent.tick] "boom" rfl

/-! ## Similarity metrics stub (grpc_marketdata handler) -/

/-- Embedding of `proto.PricePoint` (prices and volume as exact
rationals, timestamp in nanoseconds). -/
structure PricePoint where
  timestamp : Int
  openPrice : ℚ
  high : ℚ
  low : ℚ
  close : ℚ
  volume : ℚ
deriving DecidableEq, Repr

/-- Embedding of `proto.StatisticalMetrics`. -/
structure StatisticalMetrics where
  correlationCoefficient : ℚ
  volatilitySimilarity : ℚ
  returnDistributionSimilarity : ℚ
  trendSimilarity : ℚ
  confidenceScore : ℚ
deriving DecidableEq, Repr

/-- Embedding of `calculateSimilarityMetrics`: zeros on an empty input,
otherwise four values drawn from the shared random stream (whose next
four `rand.Float64` outputs, each in `[0,1)`, are `r1..r4`) shifted into
fixed ranges, with the confidence score their mean; the price series are
never read beyond the emptiness check. -/
def calculateSimilarityMetrics (r1 r2 r3 r4 : ℚ)
    (historical simulated : List PricePoint) : StatisticalMetrics :=
  if historical = [] ∨ simulated = [] then
    ⟨0, 0, 0, 0, 0⟩
  else
    let correlation := 85 / 100 + r1 * (10 / 100)
    let volatilitySimilarity := 80 / 100 + r2 * (15 / 100)
    let returnSimilarity := 75 / 100 + r3 * (20 / 100)
    let trendSimilarity := 82 / 100 + r4 * (13 / 100)
    let confidenceScore :=
      (correlation + volatilitySimilarity + returnSimilarity + trendSimilarity) / 4
    ⟨correlation, volatilitySimilarity, returnSimilarity, trendSimilarity,
      confidenceScore⟩

/-- C9: on non-empty inputs the similarity metrics depend only on the
random stream, never on the price series; each component lies in its
fixed range (correlation in `[0.85, 0.95)`, volatility similarity in
`[0.80, 0.95)`, return-distribution similarity in `[0.75, 0.95)`, trend
similarity in `[0.82, 0.95)`); and the confidence score is the
arithmetic mean of the four components. -/
theorem similarity_metrics_stub (r1 r2 r3 r4 : ℚ)
    (hr1 : 0 ≤ r1 ∧ r1 < 1) (hr2 : 0 ≤ r2 ∧ r2 < 1)
    (hr3 : 0 ≤ r3 ∧ r3 < 1) (hr4 : 0 ≤ r4 ∧ r4 < 1)
    (historical simulated historical' simulated' : List PricePoint)
    (h1 : historical ≠ []) (h2 : simulated ≠ [])
    (h3 : historical' ≠ []) (h4 : simulated' ≠ []) :
    calculateSimilarityMetrics r1 r2 r3 r4 historical simulated =
      calculateSimilarityMetrics r1 r2 r3 r4 historical' simulated' ∧
    (85 / 100 ≤ (calculateSimilarityMetrics r1 r2 r3 r4 historical
        simulated).correlationCoefficient ∧
      (calculateSimilarityMetrics r1 r2 r3 r4 historical
        simulated).correlationCoefficient < 95 / 100) ∧
    (80 / 100 ≤ (calculateSimilarityMetrics r1 r2 r3 r4 historical
        simulated).volatilitySimilarity ∧
      (calculateSimilarityMetrics r1 r2 r3 r4 historical
        simulated).volatilitySimilarity < 95 / 100) ∧
    (75 / 100 ≤ (calculateSimilarityMetrics r1 r2 r3 r4 historical
        simulated).returnDistributionSimilarity ∧
      (calculateSimilarityMetrics r1 r2 r3 r4 historical
        simulated).returnDistributionSimilarity < 95 / 100) ∧
    (82 / 100 ≤ (calculateSimilarityMetrics r1 r2 r3 r4 historical
        simulated).trendSimilarity ∧
      (calculateSimilarityMetrics r1 r2 r3 r4 historical
        simulated).trendSimilarity < 95 / 100) ∧
    (calculateSimilarityMetrics r1 r2 r3 r4 historical
        simulated).confidenceScore =
      ((calculateSimilarityMetrics r1 r2 r3 r4 historical
          simulated).correlationCoefficient +
        (calculateSimilarityMetrics r1 r2 r3 r4 historical
          simulated).volatilitySimilarity +
        (calculateSimilarityMetrics r1 r2 r3 r4 historical
          simulated).returnDistributionSimilarity +
        (calculateSimilarityMetrics r1 r2 r3 r4 historical
          simulated).trendSimilarity) / 4 := by
  have hcond : ¬(historical = [] ∨ simulated = []) := by
    intro hc
    rcases hc with hc | hc
    · exact h1 hc
    · exact h2 hc
  have hcond' : ¬(historical' = [] ∨ simulated' = []) := by
    intro hc
    rcases hc with hc | hc
    · exact h3 hc
    · exact h4 hc
  simp only [calculateSimilarityMetrics, if_neg hcond, if_neg hcond']
  refine ⟨trivial, ⟨?_, ?_⟩, ⟨?_, ?_⟩, ⟨?_, ?_⟩, ⟨?_, ?_⟩, trivial⟩ <;>
    [nlinarith [hr1.1, hr1.2]; nlinarith [hr1.1, hr1.2];
      nlinarith [hr2.1, hr2.2]; nlinarith [hr2.1, hr2.2];
      nlinarith [hr3.1, hr3.2]; nlinarith [hr3.1, hr3.2];
      nlinarith [hr4.1, hr4.2]; nlinarith [hr4.1, hr4.2]]

/-- Witness for C9 on two different one-point series pairs and the
random stream `1/2, 0, 1/3, 9/10`. -/
theorem similarity_metrics_stub_witness :
    calculateSimilarityMetrics (1/2) 0 (1/3) (9/10)
        [⟨0, 1, 1, 1, 1, 1⟩] [⟨0, 2, 2, 2, 2, 2⟩] =
      calculateSimilarityMetrics (1/2) 0 (1/3) (9/10)
        [⟨5, 7, 8, 6, 7, 100⟩, ⟨6, 7, 8, 6, 7, 100⟩] [⟨5, 3, 3, 3, 3, 9⟩] ∧
    (calculateSimilarityMetrics (1/2) 0 (1/3) (9/10)
        [⟨0, 1, 1, 1, 1, 1⟩] [⟨0, 2, 2, 2, 2, 2⟩]).correlationCoefficient
      < 95 / 100 := by
  have h := similarity_metrics_stub (1/2) 0 (1/3) (9/10)
    (by norm_num) (by norm_num) (by norm_num) (by norm_num)
    [⟨0, 1, 1, 1, 1, 1⟩] [⟨0, 2, 2, 2, 2, 2⟩]
    [⟨5, 7, 8, 6, 7, 100⟩, ⟨6, 7, 8, 6, 7, 100⟩] [⟨5, 3, 3, 3, 3, 9⟩]
    (by simp) (by simp) (by simp) (by simp)
  exact ⟨h.1, h.2.1.2⟩

/-! ## Stream update-interval clamp (StreamPrices) -/

/-- Nanoseconds in one millisecond (`time.Millisecond`). -/
def millisecondNs : Int := 1000000

/-- Embedding of the interval computation at the top of `StreamPrices`:
`time.Duration(req.UpdateIntervalMs) * time.Millisecond`, clamped below
at 100ms. -/
def effectiveUpdateInterval (updateIntervalMs : Int) : Int :=
  let updateInterval := updateIntervalMs * millisecondNs
  if updateInterval < 100 * millisecondNs then 100 * millisecondNs
  else updateInterval

/-- C10: a requested interval below 100ms (including zero and negative
values) is clamped to exactly 100ms; a requested interval of at least
100ms is used as requested. -/
theorem stream_update_interval_clamp (updateIntervalMs : Int) :
    (updateIntervalMs < 100 →
        effectiveUpdateInterval updateIntervalMs = 100 * millisecondNs) ∧
    (100 ≤ updateIntervalMs →
        effectiveUpdateInterval updateIntervalMs =
          updateIntervalMs * millisecondNs) := by
  unfold effectiveUpdateInterval millisecondNs
  constructor <;> intro h
  · rw [if_pos]
    omega
  · rw [if_neg]
    omega

/-- Witness for C10 at 0ms, a negative value and 250ms. -/
theorem stream_update_interval_clamp_witness :
    effectiveUpdateInterval 0 = 100 * millisecondNs ∧
    effectiveUpdateInterval (-7) = 100 * millisecondNs ∧
    effectiveUpdateInterval 250 = 250 * millisecondNs :=
  ⟨(stream_update_interval_clamp 0).1 (by decide),
    (stream_update_interval_clamp (-7)).1 (by decide),
    (stream_update_interval_clamp 250).2 (by decide)⟩

end MarketData
